import Mathlib

/-!
Verification of the DataFrame logical-plan builder of `datafusion`
(`src/rust/datafusion/src/dataframe.rs`).

The repository ships only the `DataFrame` trait (signatures and doc
comments); the concrete expression algebra, schema resolver, logical-plan
nodes and builder implementation live outside the provided sources, so the
definitions below marked `Modelled from the spec:` reconstruct those parts
faithfully from the specification's words.  Everything is executable.
-/

namespace DataFusion

/-- Modelled from the spec: Arrow-style column data types used by the
schema resolver (the concrete `arrow::datatypes::DataType` is not in the
provided sources). -/
inductive DataType where
  | boolean
  | int32
  | int64
  | float32
  | float64
  | utf8
deriving DecidableEq, Repr

/-- Modelled from the spec: which data types count as numeric for
`Sum`/`Avg` aggregation and arithmetic promotion. -/
def DataType.numeric : DataType → Bool
  | .int32 => true
  | .int64 => true
  | .float32 => true
  | .float64 => true
  | _ => false

/-- Modelled from the spec: a schema field `(name, data_type, nullable)`. -/
structure Field where
  name : String
  dataType : DataType
  nullable : Bool
deriving DecidableEq, Repr

/-- Modelled from the spec: a schema is an ordered sequence of fields. -/
structure Schema where
  fields : List Field
deriving DecidableEq, Repr

/-- Modelled from the spec: typed literal constants. -/
inductive ScalarValue where
  | int64Val (i : Int)
  | booleanVal (b : Bool)
  | utf8Val (s : String)
deriving DecidableEq, Repr

/-- Modelled from the spec: the data type of a literal value. -/
def ScalarValue.dtype : ScalarValue → DataType
  | .int64Val _ => .int64
  | .booleanVal _ => .boolean
  | .utf8Val _ => .utf8

/-- Modelled from the spec: the textual form of a literal, used to
synthesize its output field name. -/
def ScalarValue.text : ScalarValue → String
  | .int64Val i => toString i
  | .booleanVal b => toString b
  | .utf8Val s => s

/-- Modelled from the spec: binary operators (arithmetic, comparison,
logical). -/
inductive Operator where
  | eq
  | notEq
  | lt
  | ltEq
  | gt
  | gtEq
  | plus
  | minus
  | multiply
  | divide
  | andOp
  | orOp
deriving DecidableEq, Repr

/-- Modelled from the spec: printable operator symbol, used when
synthesizing output field names for binary expressions. -/
def Operator.text : Operator → String
  | .eq => "="
  | .notEq => "!="
  | .lt => "<"
  | .ltEq => "<="
  | .gt => ">"
  | .gtEq => ">="
  | .plus => "+"
  | .minus => "-"
  | .multiply => "*"
  | .divide => "/"
  | .andOp => "AND"
  | .orOp => "OR"

/-- Modelled from the spec: the aggregate function kinds. -/
inductive AggKind where
  | min
  | max
  | sum
  | avg
  | count
deriving DecidableEq, Repr

/-- Modelled from the spec: lowercase tag of an aggregate kind, used when
synthesizing output field names such as `min_b`. -/
def AggKind.text : AggKind → String
  | .min => "min"
  | .max => "max"
  | .sum => "sum"
  | .avg => "avg"
  | .count => "count"

/-- Modelled from the spec: the recursive expression algebra `Expr` with
variants `Column`, `Literal`, `BinaryOp`, `AggregateFunction` and `Sort`. -/
inductive Expr where
  | column (name : String)
  | literal (v : ScalarValue)
  | binaryOp (l : Expr) (op : Operator) (r : Expr)
  | aggregateFunction (kind : AggKind) (arg : Expr)
  | sort (inner : Expr) (ascending : Bool) (nullsFirst : Bool)
deriving DecidableEq, Repr

/-- Modelled from the spec: the fluent comparison combinator
`a.lt_eq(b)`, a pure constructor performing no validation. -/
def Expr.lt_eq (l r : Expr) : Expr :=
  .binaryOp l .ltEq r

/-- Modelled from the spec: the synthesized output name of an
expression. -/
def exprName : Expr → String
  | .column n => n
  | .literal v => v.text
  | .binaryOp l op r => exprName l ++ " " ++ op.text ++ " " ++ exprName r
  | .aggregateFunction k arg => k.text ++ "_" ++ exprName arg
  | .sort inner _ _ => exprName inner

/-- Modelled from the spec: the error kinds raised by builder calls. -/
inductive DFError where
  | unknownColumn (name : String)
  | typeMismatch
  | unsupportedType
  | invalidAggregate
  | invalidArgument
deriving DecidableEq, Repr

/-- Modelled from the spec: the fixed numeric type-promotion table
(numeric widening) for binary arithmetic. -/
def promoteNumeric : DataType → DataType → DataType
  | .float64, _ => .float64
  | _, .float64 => .float64
  | .float32, _ => .float32
  | _, .float32 => .float32
  | .int64, _ => .int64
  | _, .int64 => .int64
  | _, _ => .int32

/-- Modelled from the spec: the result type of a binary operator given its
operands' resolved types; `TypeMismatch` when the operator is undefined
for the pair. -/
def opResultType (op : Operator) (a b : DataType) : Except DFError DataType :=
  match op with
  | .eq | .notEq | .lt | .ltEq | .gt | .gtEq =>
    if a = b ∨ (a.numeric && b.numeric) then .ok .boolean else .error .typeMismatch
  | .plus | .minus | .multiply | .divide =>
    if a.numeric && b.numeric then .ok (promoteNumeric a b) else .error .typeMismatch
  | .andOp | .orOp =>
    if a = .boolean ∧ b = .boolean then .ok .boolean else .error .typeMismatch

/-- Modelled from the spec: the numeric result type of `Sum` derived from
the argument's type by widening. -/
def sumType : DataType → DataType
  | .int32 => .int64
  | .int64 => .int64
  | .float32 => .float64
  | .float64 => .float64
  | t => t

/-- Modelled from the spec: the output field of an `AggregateFunction`
given the resolved field of its argument; `Count` is a non-nullable
integer, `Min`/`Max` keep the argument's type and nullability, `Sum`/`Avg`
are nullable numerics and fail with `UnsupportedType` on non-numeric
arguments. -/
def aggReturnField (kind : AggKind) (nm : String) (fa : Field) : Except DFError Field :=
  match kind with
  | .count => .ok ⟨nm, .int64, false⟩
  | .min => .ok ⟨nm, fa.dataType, fa.nullable⟩
  | .max => .ok ⟨nm, fa.dataType, fa.nullable⟩
  | .sum =>
    if fa.dataType.numeric then .ok ⟨nm, sumType fa.dataType, true⟩
    else .error .unsupportedType
  | .avg =>
    if fa.dataType.numeric then .ok ⟨nm, .float64, true⟩
    else .error .unsupportedType

/-- Modelled from the spec: the Schema Resolver
`resolve(schema, expr) -> Result<Field>`. -/
def resolve (s : Schema) : Expr → Except DFError Field
  | .column name =>
    match s.fields.find? (fun fl => fl.name == name) with
    | some fl => .ok fl
    | none => .error (.unknownColumn name)
  | .literal v => .ok ⟨v.text, v.dtype, false⟩
  | .binaryOp l op r =>
    match resolve s l, resolve s r with
    | .ok fl, .ok fr =>
      match opResultType op fl.dataType fr.dataType with
      | .ok t => .ok ⟨exprName (.binaryOp l op r), t, fl.nullable || fr.nullable⟩
      | .error e => .error e
    | .error e, _ => .error e
    | .ok _, .error e => .error e
  | .aggregateFunction kind arg =>
    match resolve s arg with
    | .ok fa => aggReturnField kind (exprName (.aggregateFunction kind arg)) fa
    | .error e => .error e
  | .sort inner _ _ => resolve s inner

/-- Modelled from the spec: resolve a list of expressions in order,
failing on the first expression that does not resolve. -/
def resolveAll (s : Schema) : List Expr → Except DFError (List Field)
  | [] => .ok []
  | e :: rest =>
    match resolve s e with
    | .ok f =>
      match resolveAll s rest with
      | .ok fs => .ok (f :: fs)
      | .error er => .error er
    | .error er => .error er

/-- Modelled from the spec: recognizer for `AggregateFunction`
expressions, used by `aggregate` validation. -/
def isAggExpr : Expr → Bool
  | .aggregateFunction _ _ => true
  | _ => false

/-- Modelled from the spec: recognizer for `Sort`-wrapped expressions,
used by `sort` validation. -/
def isSortExpr : Expr → Bool
  | .sort _ _ _ => true
  | _ => false

/-- Modelled from the spec: the tagged tree of relational operators, one
node per operator, plus the `Scan` leaf with a base schema. -/
inductive LogicalPlan where
  | scan (schema : Schema)
  | projection (exprs : List Expr) (input : LogicalPlan)
  | filter (predicate : Expr) (input : LogicalPlan)
  | aggregate (groupExpr : List Expr) (aggrExpr : List Expr) (input : LogicalPlan)
  | sort (sortExpr : List Expr) (input : LogicalPlan)
  | limit (n : Nat) (input : LogicalPlan)
deriving DecidableEq, Repr

/-- Modelled from the spec: the builder, a thin value pairing a
`LogicalPlan` root with its derived `Schema`. -/
structure DataFrame where
  plan : LogicalPlan
  schema : Schema
deriving DecidableEq, Repr

/-- Modelled from the spec: the source collaborator constructs an initial
builder from a base `Scan` node plus its schema. -/
def DataFrame.ofScan (s : Schema) : DataFrame :=
  ⟨.scan s, s⟩

/-- Return the logical plan represented by this DataFrame (total, no
error path, per the trait signature `fn to_logical_plan(&self) -> LogicalPlan`). -/
def DataFrame.to_logical_plan (df : DataFrame) : LogicalPlan :=
  df.plan

/-- Modelled from the spec: `select(exprs)` builds
`Projection{input, exprs}`; output schema is the resolved field per
expression, in order. -/
def DataFrame.select (df : DataFrame) (exprs : List Expr) : Except DFError DataFrame :=
  match resolveAll df.schema exprs with
  | .ok fs => .ok ⟨.projection exprs df.plan, ⟨fs⟩⟩
  | .error e => .error e

/-- Modelled from the spec: `select_columns(names)` is sugar for `select`
with one `Column` expression per name, in the given order. -/
def DataFrame.select_columns (df : DataFrame) (names : List String) : Except DFError DataFrame :=
  df.select (names.map Expr.column)

/-- Modelled from the spec: `filter(expr)` builds
`Filter{input, predicate}`; fails with `TypeMismatch` unless the resolved
type of the predicate is boolean; output schema unchanged. -/
def DataFrame.filter (df : DataFrame) (e : Expr) : Except DFError DataFrame :=
  match resolve df.schema e with
  | .ok f =>
    if f.dataType = .boolean then .ok ⟨.filter e df.plan, df.schema⟩
    else .error .typeMismatch
  | .error er => .error er

/-- Modelled from the spec: `aggregate(group_exprs, aggr_exprs)` builds
`Aggregate{input, group_exprs, aggr_exprs}`; output schema is the resolved
group fields followed by the resolved aggregate fields; fails with
`InvalidAggregate` when some aggregate expression is not an
`AggregateFunction`. -/
def DataFrame.aggregate (df : DataFrame) (groupExpr aggrExpr : List Expr) :
    Except DFError DataFrame :=
  if aggrExpr.all isAggExpr then
    match resolveAll df.schema groupExpr, resolveAll df.schema aggrExpr with
    | .ok gf, .ok af => .ok ⟨.aggregate groupExpr aggrExpr df.plan, ⟨gf ++ af⟩⟩
    | .error e, _ => .error e
    | .ok _, .error e => .error e
  else .error .invalidAggregate

/-- Modelled from the spec: `sort(sort_exprs)` builds
`Sort{input, sort_exprs}`; each element must be a `Sort`-wrapped
expression; output schema unchanged. -/
def DataFrame.sort (df : DataFrame) (es : List Expr) : Except DFError DataFrame :=
  if es.all isSortExpr then
    match resolveAll df.schema es with
    | .ok _ => .ok ⟨.sort es df.plan, df.schema⟩
    | .error e => .error e
  else .error .invalidArgument

/-- Modelled from the spec: `limit(n)` builds `Limit{input, n}`; this core
configures no maximum, so the call is unconditional; output schema
unchanged. -/
def DataFrame.limit (df : DataFrame) (n : Nat) : Except DFError DataFrame :=
  .ok ⟨.limit n df.plan, df.schema⟩

/-- Modelled from the spec: the `min` aggregate expression factory; a pure
factory performing no schema validation. -/
def DataFrame.min (_df : DataFrame) (e : Expr) : Except DFError Expr :=
  .ok (.aggregateFunction .min e)

/-- Modelled from the spec: the `max` aggregate expression factory. -/
def DataFrame.max (_df : DataFrame) (e : Expr) : Except DFError Expr :=
  .ok (.aggregateFunction .max e)

/-- Modelled from the spec: the `sum` aggregate expression factory. -/
def DataFrame.sum (_df : DataFrame) (e : Expr) : Except DFError Expr :=
  .ok (.aggregateFunction .sum e)

/-- Modelled from the spec: the `avg` aggregate expression factory. -/
def DataFrame.avg (_df : DataFrame) (e : Expr) : Except DFError Expr :=
  .ok (.aggregateFunction .avg e)

/-- Modelled from the spec: the `count` aggregate expression factory. -/
def DataFrame.count (_df : DataFrame) (e : Expr) : Except DFError Expr :=
  .ok (.aggregateFunction .count e)

/-- Modelled from the spec: the derived output schema of a plan node;
`none` when some expression of the plan does not resolve against its
input's schema. -/
def planSchema : LogicalPlan → Option Schema
  | .scan s => some s
  | .projection es i =>
    match planSchema i with
    | some s =>
      match resolveAll s es with
      | .ok fs => some ⟨fs⟩
      | .error _ => none
    | none => none
  | .filter _ i => planSchema i
  | .aggregate g a i =>
    match planSchema i with
    | some s =>
      match resolveAll s g, resolveAll s a with
      | .ok gf, .ok af => some ⟨gf ++ af⟩
      | _, _ => none
    | none => none
  | .sort _ i => planSchema i
  | .limit _ i => planSchema i

/-- Modelled from the spec: field names are unique within a schema. -/
def namesNodup : List String → Bool
  | [] => true
  | n :: rest => !(rest.contains n) && namesNodup rest

/-- Modelled from the spec: schema-validity of a whole plan, the
invariant a successfully built plan must satisfy — every node's
expressions resolve against its input's schema, filter predicates are
boolean, aggregate expressions are `AggregateFunction`s, sort
expressions are `Sort`-wrapped, and the base scan schema has unique
field names. -/
def planValid : LogicalPlan → Bool
  | .scan s => namesNodup (s.fields.map Field.name)
  | .projection es i =>
    planValid i &&
      match planSchema i with
      | some s => (resolveAll s es).isOk
      | none => false
  | .filter e i =>
    planValid i &&
      match planSchema i with
      | some s =>
        match resolve s e with
        | .ok f => f.dataType == .boolean
        | .error _ => false
      | none => false
  | .aggregate g a i =>
    planValid i && a.all isAggExpr &&
      match planSchema i with
      | some s => (resolveAll s g).isOk && (resolveAll s a).isOk
      | none => false
  | .sort es i =>
    planValid i && es.all isSortExpr &&
      match planSchema i with
      | some s => (resolveAll s es).isOk
      | none => false
  | .limit _ i => planValid i

/-- A builder reachable through the public API: an initial scan builder
from the source collaborator (whose schema has unique field names)
extended by successful transformation calls. -/
inductive Built : DataFrame → Prop
  | scan (s : Schema) : namesNodup (s.fields.map Field.name) = true →
      Built (DataFrame.ofScan s)
  | select {df : DataFrame} {es : List Expr} {df' : DataFrame} :
      Built df → df.select es = .ok df' → Built df'
  | select_columns {df : DataFrame} {names : List String} {df' : DataFrame} :
      Built df → df.select_columns names = .ok df' → Built df'
  | filter {df : DataFrame} {e : Expr} {df' : DataFrame} :
      Built df → df.filter e = .ok df' → Built df'
  | aggregate {df : DataFrame} {g a : List Expr} {df' : DataFrame} :
      Built df → df.aggregate g a = .ok df' → Built df'
  | sort {df : DataFrame} {es : List Expr} {df' : DataFrame} :
      Built df → df.sort es = .ok df' → Built df'
  | limit {df : DataFrame} {n : Nat} {df' : DataFrame} :
      Built df → df.limit n = .ok df' → Built df'

/-- Modelled from the spec: runtime cell values produced by the external
execution collaborator (integral and boolean columns suffice for the
modelled sources). -/
inductive Value where
  | int (i : Int)
  | bool (b : Bool)
  | str (s : String)
  | null
deriving DecidableEq, Repr

/-- Modelled from the spec: the runtime value of a literal. -/
def ScalarValue.toValue : ScalarValue → Value
  | .int64Val i => .int i
  | .booleanVal b => .bool b
  | .utf8Val s => .str s

/-- Modelled from the spec: apply a binary operator to two runtime
values, with null propagation. -/
def applyOp (op : Operator) (a b : Value) : Value :=
  match a, b with
  | .null, _ => .null
  | _, .null => .null
  | _, _ =>
    match op, a, b with
    | .plus, .int x, .int y => .int (x + y)
    | .minus, .int x, .int y => .int (x - y)
    | .multiply, .int x, .int y => .int (x * y)
    | .divide, .int x, .int y => if y = 0 then .null else .int (x / y)
    | .eq, x, y => .bool (x == y)
    | .notEq, x, y => .bool (!(x == y))
    | .lt, .int x, .int y => .bool (decide (x < y))
    | .ltEq, .int x, .int y => .bool (decide (x ≤ y))
    | .gt, .int x, .int y => .bool (decide (x > y))
    | .gtEq, .int x, .int y => .bool (decide (x ≥ y))
    | .andOp, .bool x, .bool y => .bool (x && y)
    | .orOp, .bool x, .bool y => .bool (x || y)
    | _, _, _ => .null

/-- Modelled from the spec: evaluate a scalar expression over a single
row laid out according to the given schema. -/
def evalExpr (s : Schema) (r : List Value) : Expr → Value
  | .column name =>
    match s.fields.findIdx? (fun fl => fl.name == name) with
    | some i => r.getD i .null
    | none => .null
  | .literal v => v.toValue
  | .binaryOp l op rr => applyOp op (evalExpr s r l) (evalExpr s r rr)
  | .aggregateFunction _ _ => .null
  | .sort inner _ _ => evalExpr s r inner

/-- Modelled from the spec: reduce the argument values of one group to a
single aggregate value. -/
def aggEval (kind : AggKind) (vals : List Value) : Value :=
  let nonNull := vals.filter (fun v => !(v == .null))
  let ints := nonNull.filterMap (fun v =>
    match v with
    | .int i => some i
    | _ => none)
  match kind with
  | .count => .int nonNull.length
  | .min =>
    match ints with
    | [] => .null
    | x :: xs => .int (xs.foldl Min.min x)
  | .max =>
    match ints with
    | [] => .null
    | x :: xs => .int (xs.foldl Max.max x)
  | .sum =>
    match ints with
    | [] => .null
    | x :: xs => .int (xs.foldl (· + ·) x)
  | .avg =>
    match ints with
    | [] => .null
    | x :: xs => .int ((xs.foldl (· + ·) x) / (ints.length : Int))

/-- Modelled from the spec: remove duplicate keys, keeping first
occurrences in order. -/
def dedupAux [BEq α] (seen : List α) : List α → List α
  | [] => []
  | x :: xs =>
    if seen.contains x then dedupAux seen xs
    else x :: dedupAux (x :: seen) xs

/-- Modelled from the spec: the distinct grouping keys in first-seen
order. -/
def dedup [BEq α] (l : List α) : List α :=
  dedupAux [] l

/-- Modelled from the spec: the aggregate output cell of one aggregate
expression over the rows of a group. -/
def aggCell (s : Schema) (rows : List (List Value)) (ae : Expr) : Value :=
  match ae with
  | .aggregateFunction k arg => aggEval k (rows.map (fun r => evalExpr s r arg))
  | _ => .null

/-- Modelled from the spec: execute an `Aggregate` node — group the input
rows by the group expressions (an empty `group_exprs` meaning one group
over the whole input) and emit group key values followed by aggregate
values. -/
def executeAggregate (s : Schema) (g a : List Expr) (rows : List (List Value)) :
    List (List Value) :=
  match g with
  | [] => [a.map (aggCell s rows)]
  | _ =>
    let keyOf := fun r => g.map (evalExpr s r)
    let keys := dedup (rows.map keyOf)
    keys.map (fun k =>
      k ++ a.map (aggCell s (rows.filter (fun r => keyOf r == k))))

/-- Modelled from the spec: total order on cell values used by `Sort`. -/
def cmpValue : Value → Value → Ordering
  | .int a, .int b => compare a b
  | .str a, .str b => compare a b
  | .bool a, .bool b => compare (if a then (1 : Nat) else 0) (if b then 1 else 0)
  | _, _ => .eq

/-- Modelled from the spec: compare two rows under a single
`Sort`-wrapped expression, honouring the ascending and nulls-first
flags. -/
def cmpBySort (s : Schema) (se : Expr) (r1 r2 : List Value) : Ordering :=
  match se with
  | .sort inner asc nf =>
    let v1 := evalExpr s r1 inner
    let v2 := evalExpr s r2 inner
    match v1, v2 with
    | .null, .null => .eq
    | .null, _ => if nf then .lt else .gt
    | _, .null => if nf then .gt else .lt
    | _, _ =>
      let c := cmpValue v1 v2
      if asc then c else c.swap
  | _ => .eq

/-- Modelled from the spec: lexicographic row comparison over a list of
sort expressions. -/
def rowLe (s : Schema) (es : List Expr) (r1 r2 : List Value) : Bool :=
  match es with
  | [] => true
  | se :: rest =>
    match cmpBySort s se r1 r2 with
    | .lt => true
    | .gt => false
    | .eq => rowLe s rest r1 r2

/-- Modelled from the spec: stable insertion into a sorted row list. -/
def insertRow (le : α → α → Bool) (x : α) : List α → List α
  | [] => [x]
  | y :: ys => if le x y then x :: y :: ys else y :: insertRow le x ys

/-- Modelled from the spec: stable insertion sort of the rows. -/
def insSort (le : α → α → Bool) : List α → List α
  | [] => []
  | x :: xs => insertRow le x (insSort le xs)

/-- Modelled from the spec: the external execution collaborator
`execute(plan) -> sequence of rows`, with the scanned source rows given
explicitly; `Limit{n}` yields at most `n` rows, `Filter` keeps matching
rows, `Projection` maps, `Aggregate` groups, `Sort` reorders. -/
def execute (tbl : List (List Value)) : LogicalPlan → List (List Value)
  | .scan _ => tbl
  | .projection es i =>
    let s := (planSchema i).getD ⟨[]⟩
    (execute tbl i).map (fun r => es.map (evalExpr s r))
  | .filter e i =>
    let s := (planSchema i).getD ⟨[]⟩
    (execute tbl i).filter (fun r => evalExpr s r e == .bool true)
  | .aggregate g a i =>
    let s := (planSchema i).getD ⟨[]⟩
    executeAggregate s g a (execute tbl i)
  | .sort es i =>
    let s := (planSchema i).getD ⟨[]⟩
    insSort (rowLe s es) (execute tbl i)
  | .limit n i => (execute tbl i).take n

/-- Modelled from the spec: `collect()` hands the finished plan to the
execution collaborator over the given source rows and returns the
resulting rows. -/
def DataFrame.collect (df : DataFrame) (tbl : List (List Value)) :
    Except DFError (List (List Value)) :=
  .ok (execute tbl df.plan)

/-- The schema-resolution judgment as a relation, one rule per resolver
case, used to state that the resolver is a deterministic (functional)
relation on its inputs. -/
inductive ResolveR : Schema → Expr → Field → Prop
  | column {s : Schema} {name : String} {f : Field} :
      s.fields.find? (fun fl => fl.name == name) = some f →
      ResolveR s (.column name) f
  | literal {s : Schema} (v : ScalarValue) :
      ResolveR s (.literal v) ⟨v.text, v.dtype, false⟩
  | binaryOp {s : Schema} {l r : Expr} {op : Operator} {fl fr : Field} {t : DataType} :
      ResolveR s l fl → ResolveR s r fr →
      opResultType op fl.dataType fr.dataType = .ok t →
      ResolveR s (.binaryOp l op r)
        ⟨exprName (.binaryOp l op r), t, fl.nullable || fr.nullable⟩
  | countAgg {s : Schema} {arg : Expr} {fa : Field} :
      ResolveR s arg fa →
      ResolveR s (.aggregateFunction .count arg)
        ⟨exprName (.aggregateFunction .count arg), .int64, false⟩
  | minAgg {s : Schema} {arg : Expr} {fa : Field} :
      ResolveR s arg fa →
      ResolveR s (.aggregateFunction .min arg)
        ⟨exprName (.aggregateFunction .min arg), fa.dataType, fa.nullable⟩
  | maxAgg {s : Schema} {arg : Expr} {fa : Field} :
      ResolveR s arg fa →
      ResolveR s (.aggregateFunction .max arg)
        ⟨exprName (.aggregateFunction .max arg), fa.dataType, fa.nullable⟩
  | sumAgg {s : Schema} {arg : Expr} {fa : Field} :
      ResolveR s arg fa → fa.dataType.numeric = true →
      ResolveR s (.aggregateFunction .sum arg)
        ⟨exprName (.aggregateFunction .sum arg), sumType fa.dataType, true⟩
  | avgAgg {s : Schema} {arg : Expr} {fa : Field} :
      ResolveR s arg fa → fa.dataType.numeric = true →
      ResolveR s (.aggregateFunction .avg arg)
        ⟨exprName (.aggregateFunction .avg arg), .float64, true⟩
  | sortE {s : Schema} {inner : Expr} {asc nf : Bool} {f : Field} :
      ResolveR s inner f →
      ResolveR s (.sort inner asc nf) f

theorem resolveR_sound {s : Schema} {e : Expr} {f : Field}
    (h : ResolveR s e f) : resolve s e = .ok f := by
  induction h with
  | column hf => simp [resolve, hf]
  | literal v => simp [resolve]
  | binaryOp hl hr hop ihl ihr => simp [resolve, ihl, ihr, hop]
  | countAgg ha iha => simp [resolve, iha, aggReturnField]
  | minAgg ha iha => simp [resolve, iha, aggReturnField]
  | maxAgg ha iha => simp [resolve, iha, aggReturnField]
  | sumAgg ha hn iha => simp [resolve, iha, aggReturnField, hn]
  | avgAgg ha hn iha => simp [resolve, iha, aggReturnField, hn]
  | sortE hi ihi => simpa [resolve] using ihi

theorem resolve_complete {s : Schema} {e : Expr} {f : Field}
    (h : resolve s e = .ok f) : ResolveR s e f := by
  induction e generalizing f with
  | column name =>
    unfold resolve at h
    split at h
    · cases h
      exact ResolveR.column (by assumption)
    · exact Except.noConfusion h
  | literal v =>
    unfold resolve at h
    cases h
    exact ResolveR.literal v
  | binaryOp l op r ihl ihr =>
    unfold resolve at h
    split at h
    · split at h
      · cases h
        exact ResolveR.binaryOp (ihl (by assumption)) (ihr (by assumption))
          (by assumption)
      · exact Except.noConfusion h
    · exact Except.noConfusion h
    · exact Except.noConfusion h
  | aggregateFunction kind arg iha =>
    unfold resolve at h
    split at h
    case h_1 fa ha =>
      have hra := iha ha
      cases kind with
      | count =>
        simp only [aggReturnField] at h
        cases h
        exact ResolveR.countAgg hra
      | min =>
        simp only [aggReturnField] at h
        cases h
        exact ResolveR.minAgg hra
      | max =>
        simp only [aggReturnField] at h
        cases h
        exact ResolveR.maxAgg hra
      | sum =>
        simp only [aggReturnField] at h
        split at h
        · cases h
          exact ResolveR.sumAgg hra (by assumption)
        · exact Except.noConfusion h
      | avg =>
        simp only [aggReturnField] at h
        split at h
        · cases h
          exact ResolveR.avgAgg hra (by assumption)
        · exact Except.noConfusion h
    case h_2 => exact Except.noConfusion h
  | sort inner asc nf ihi =>
    unfold resolve at h
    exact ResolveR.sortE (ihi h)

theorem select_ok {df : DataFrame} {es : List Expr} {df' : DataFrame}
    (h : df.select es = .ok df') :
    ∃ fs, resolveAll df.schema es = .ok fs ∧
      df' = ⟨.projection es df.plan, ⟨fs⟩⟩ := by
  unfold DataFrame.select at h
  split at h
  · cases h
    exact ⟨_, by assumption, rfl⟩
  · exact Except.noConfusion h

theorem filter_ok {df : DataFrame} {e : Expr} {df' : DataFrame}
    (h : df.filter e = .ok df') :
    ∃ f, resolve df.schema e = .ok f ∧ f.dataType = .boolean ∧
      df' = ⟨.filter e df.plan, df.schema⟩ := by
  unfold DataFrame.filter at h
  split at h
  case h_1 f hf =>
    split at h
    · cases h
      exact ⟨f, hf, by assumption, rfl⟩
    · exact Except.noConfusion h
  case h_2 => exact Except.noConfusion h

theorem aggregate_ok {df : DataFrame} {g a : List Expr} {df' : DataFrame}
    (h : df.aggregate g a = .ok df') :
    a.all isAggExpr = true ∧
    ∃ gf af, resolveAll df.schema g = .ok gf ∧ resolveAll df.schema a = .ok af ∧
      df' = ⟨.aggregate g a df.plan, ⟨gf ++ af⟩⟩ := by
  unfold DataFrame.aggregate at h
  split at h
  case isTrue hall =>
    split at h
    · cases h
      exact ⟨hall, _, _, by assumption, by assumption, rfl⟩
    · exact Except.noConfusion h
    · exact Except.noConfusion h
  case isFalse => exact Except.noConfusion h

theorem sort_ok {df : DataFrame} {es : List Expr} {df' : DataFrame}
    (h : df.sort es = .ok df') :
    es.all isSortExpr = true ∧
    (∃ fs, resolveAll df.schema es = .ok fs) ∧
    df' = ⟨.sort es df.plan, df.schema⟩ := by
  unfold DataFrame.sort at h
  split at h
  case isTrue hall =>
    split at h
    · cases h
      exact ⟨hall, ⟨_, by assumption⟩, rfl⟩
    · exact Except.noConfusion h
  case isFalse => exact Except.noConfusion h

theorem limit_ok {df : DataFrame} {n : Nat} {df' : DataFrame}
    (h : df.limit n = .ok df') :
    df' = ⟨.limit n df.plan, df.schema⟩ := by
  unfold DataFrame.limit at h
  cases h
  rfl

/-- The key invariant of every builder reachable through the API: its
stored schema is exactly the derived schema of its plan, and the plan is
schema-valid at every node. -/
theorem built_inv {df : DataFrame} (h : Built df) :
    planSchema df.plan = some df.schema ∧ planValid df.plan = true := by
  induction h with
  | scan s hs =>
    exact ⟨rfl, hs⟩
  | select hb hok ih =>
    obtain ⟨fs, hres, rfl⟩ := select_ok hok
    obtain ⟨ihs, ihv⟩ := ih
    constructor
    · simp [planSchema, ihs, hres]
    · simp [planValid, ihs, ihv, hres, Except.isOk, Except.toBool]
  | select_columns hb hok ih =>
    rw [DataFrame.select_columns] at hok
    obtain ⟨fs, hres, rfl⟩ := select_ok hok
    obtain ⟨ihs, ihv⟩ := ih
    constructor
    · simp [planSchema, ihs, hres]
    · simp [planValid, ihs, ihv, hres, Except.isOk, Except.toBool]
  | filter hb hok ih =>
    obtain ⟨f, hres, hbool, rfl⟩ := filter_ok hok
    obtain ⟨ihs, ihv⟩ := ih
    constructor
    · simpa [planSchema] using ihs
    · simp [planValid, ihs, ihv, hres, hbool]
  | aggregate hb hok ih =>
    obtain ⟨hall, gf, af, hg, ha, rfl⟩ := aggregate_ok hok
    obtain ⟨ihs, ihv⟩ := ih
    constructor
    · simp [planSchema, ihs, hg, ha]
    · simp [planValid, ihs, ihv, hall, hg, ha, Except.isOk, Except.toBool]
  | sort hb hok ih =>
    obtain ⟨hall, ⟨fs, hres⟩, rfl⟩ := sort_ok hok
    obtain ⟨ihs, ihv⟩ := ih
    constructor
    · simpa [planSchema] using ihs
    · simp [planValid, ihs, ihv, hall, hres, Except.isOk, Except.toBool]
  | limit hb hok ih =>
    obtain rfl := limit_ok hok
    obtain ⟨ihs, ihv⟩ := ih
    constructor
    · simpa [planSchema] using ihs
    · simpa [planValid] using ihv

/-- Structural size of an expression, used to show that composing
expressions yields a strictly larger (hence new) node. -/
def exprSize : Expr → Nat
  | .column _ => 1
  | .literal _ => 1
  | .binaryOp l _ r => exprSize l + exprSize r + 1
  | .aggregateFunction _ arg => exprSize arg + 1
  | .sort inner _ _ => exprSize inner + 1

/-- Structural size of a plan, used to show that transformations yield a
strictly larger (hence new) plan node. -/
def planSize : LogicalPlan → Nat
  | .scan _ => 1
  | .projection _ i => planSize i + 1
  | .filter _ i => planSize i + 1
  | .aggregate _ _ i => planSize i + 1
  | .sort _ i => planSize i + 1
  | .limit _ i => planSize i + 1

theorem resolveAll_columns_ok (s : Schema) (names : List String)
    (h : ∀ n ∈ names, (s.fields.find? (fun fl => fl.name == n)).isSome) :
    resolveAll s (names.map Expr.column) =
      .ok (names.filterMap (fun n => s.fields.find? (fun fl => fl.name == n))) := by
  induction names with
  | nil => rfl
  | cons n rest ih =>
    obtain ⟨f, hf⟩ := Option.isSome_iff_exists.mp (h n (List.mem_cons_self n rest))
    have ihr := ih (fun m hm => h m (List.mem_cons_of_mem _ hm))
    simp [resolveAll, resolve, hf, ihr]

theorem resolveAll_columns_err (s : Schema) (names : List String)
    (h : ∃ n ∈ names, s.fields.find? (fun fl => fl.name == n) = none) :
    ∃ m, resolveAll s (names.map Expr.column) = .error (.unknownColumn m) := by
  induction names with
  | nil => simp at h
  | cons n rest ih =>
    cases hf : s.fields.find? (fun fl => fl.name == n) with
    | none =>
      exact ⟨n, by simp [resolveAll, resolve, hf]⟩
    | some f =>
      obtain ⟨m, hm, hmn⟩ := h
      rcases List.mem_cons.mp hm with rfl | hmr
      · rw [hf] at hmn
        exact Option.noConfusion hmn
      · obtain ⟨m', hres⟩ := ih ⟨m, hmr, hmn⟩
        exact ⟨m', by simp [resolveAll, resolve, hf, hres]⟩

theorem exprSize_pos (e : Expr) : 0 < exprSize e := by
  cases e <;> simp [exprSize]

theorem planSize_pos (p : LogicalPlan) : 0 < planSize p := by
  cases p <;> simp [planSize]

theorem sumType_numeric {t : DataType} (h : t.numeric = true) :
    (sumType t).numeric = true := by
  cases t <;> simp [DataType.numeric, sumType] at h ⊢

/-- A concrete source schema `{a:Int32, b:Int32 nullable, c:Utf8}` used to
evaluate the theorems on concrete inputs. -/
def demoSchema : Schema :=
  ⟨[⟨"a", .int32, false⟩, ⟨"b", .int32, true⟩, ⟨"c", .utf8, false⟩]⟩

/-- The initial builder over `demoSchema`. -/
def demoDF : DataFrame :=
  DataFrame.ofScan demoSchema

/-- The expected result of `demoDF.aggregate([col a], [min(col b)])`. -/
def demoAggDF : DataFrame :=
  ⟨.aggregate [.column "a"] [.aggregateFunction .min (.column "b")] (.scan demoSchema),
    ⟨[⟨"a", .int32, false⟩, ⟨"min_b", .int32, true⟩]⟩⟩

/-- The predicate `col("a").lt_eq(col("b"))`. -/
def demoPred : Expr :=
  Expr.lt_eq (.column "a") (.column "b")

/-- The expected result of `demoDF.filter(demoPred)`. -/
def demoFilterDF : DataFrame :=
  ⟨.filter demoPred (.scan demoSchema), demoSchema⟩

/-- C1: a successful `aggregate(group_exprs, aggr_exprs)` call produces a
builder whose plan is the new `Aggregate` node and whose output schema is
exactly the resolved fields of the group expressions followed by the
resolved fields of the aggregate expressions, in that order; an empty
`group_exprs` makes execution aggregate the whole input as one group; and
the call fails with `InvalidAggregate` whenever some element of
`aggr_exprs` is not an `AggregateFunction`. -/
theorem aggregate_schema_and_validation (df : DataFrame) (g a : List Expr) :
    (∀ df', df.aggregate g a = .ok df' →
      ∃ gf af, resolveAll df.schema g = .ok gf ∧ resolveAll df.schema a = .ok af ∧
        df'.plan = .aggregate g a df.plan ∧ df'.schema.fields = gf ++ af) ∧
    (a.all isAggExpr = false → df.aggregate g a = .error .invalidAggregate) ∧
    (∀ (tbl : List (List Value)) (p : LogicalPlan),
      (execute tbl (.aggregate [] a p)).length = 1) := by
  refine ⟨?_, ?_, ?_⟩
  · intro df' h
    obtain ⟨hall, gf, af, hg, ha, rfl⟩ := aggregate_ok h
    exact ⟨gf, af, hg, ha, rfl, rfl⟩
  · intro h
    simp [DataFrame.aggregate, h]
  · intro tbl p
    simp [execute, executeAggregate]

theorem aggregate_schema_and_validation_witness :
    ∃ gf af,
      resolveAll demoDF.schema [Expr.column "a"] = .ok gf ∧
      resolveAll demoDF.schema [Expr.aggregateFunction .min (Expr.column "b")] = .ok af ∧
      demoAggDF.plan = .aggregate [Expr.column "a"]
        [Expr.aggregateFunction .min (Expr.column "b")] demoDF.plan ∧
      demoAggDF.schema.fields = gf ++ af :=
  (aggregate_schema_and_validation demoDF [Expr.column "a"]
    [Expr.aggregateFunction .min (Expr.column "b")]).1 demoAggDF (by rfl)

/-- C2: `filter(expr)` fails with `TypeMismatch` when the predicate
resolves to a non-boolean type, and when it succeeds the resulting
builder's schema is identical to the input builder's schema and its plan
is the new `Filter` node over the old plan. -/
theorem filter_typecheck_and_schema (df : DataFrame) (e : Expr) :
    (∀ df', df.filter e = .ok df' →
      df'.schema = df.schema ∧ df'.plan = .filter e df.plan) ∧
    (∀ f, resolve df.schema e = .ok f → f.dataType ≠ .boolean →
      df.filter e = .error .typeMismatch) ∧
    (∀ f, resolve df.schema e = .ok f → f.dataType = .boolean →
      df.filter e = .ok ⟨.filter e df.plan, df.schema⟩) := by
  refine ⟨?_, ?_, ?_⟩
  · intro df' h
    obtain ⟨f, hf, hb, rfl⟩ := filter_ok h
    exact ⟨rfl, rfl⟩
  · intro f hf hnb
    simp [DataFrame.filter, hf, hnb]
  · intro f hf hb
    simp [DataFrame.filter, hf, hb]

theorem filter_typecheck_and_schema_witness :
    demoFilterDF.schema = demoDF.schema ∧
    demoFilterDF.plan = .filter demoPred demoDF.plan :=
  (filter_typecheck_and_schema demoDF demoPred).1 demoFilterDF (by rfl)

/-- C3: `select_columns(names)` behaves exactly like `select` applied to
one `Column` expression per name in the given order; when every name is
present the result schema consists of the matched fields in the given
order, and the call fails with `UnknownColumn` whenever some name is
absent from the current schema. -/
theorem select_columns_sugar (df : DataFrame) (names : List String) :
    df.select_columns names = df.select (names.map Expr.column) ∧
    ((∀ n ∈ names, (df.schema.fields.find? (fun fl => fl.name == n)).isSome) →
      df.select_columns names =
        .ok ⟨.projection (names.map Expr.column) df.plan,
          ⟨names.filterMap (fun n => df.schema.fields.find? (fun fl => fl.name == n))⟩⟩) ∧
    ((∃ n ∈ names, df.schema.fields.find? (fun fl => fl.name == n) = none) →
      ∃ m, df.select_columns names = .error (.unknownColumn m)) := by
  refine ⟨rfl, ?_, ?_⟩
  · intro h
    simp [DataFrame.select_columns, DataFrame.select,
      resolveAll_columns_ok df.schema names h]
  · intro h
    obtain ⟨m, hres⟩ := resolveAll_columns_err df.schema names h
    exact ⟨m, by simp [DataFrame.select_columns, DataFrame.select, hres]⟩

theorem select_columns_sugar_witness :
    (demoDF.select_columns ["a", "b"] =
      .ok ⟨.projection (["a", "b"].map Expr.column) demoDF.plan,
        ⟨["a", "b"].filterMap
          (fun n => demoDF.schema.fields.find? (fun fl => fl.name == n))⟩⟩) ∧
    (∃ m, demoDF.select_columns ["z"] = .error (.unknownColumn m)) :=
  ⟨(select_columns_sugar demoDF ["a", "b"]).2.1 (by decide),
   (select_columns_sugar demoDF ["z"]).2.2 ⟨"z", by decide, by decide⟩⟩

/-- C4: resolving an `AggregateFunction` whose argument resolves to field
`f` yields: for `Count` a non-nullable `Int64` field regardless of `f`'s
nullability; for `Min`/`Max` a field with `f`'s type and nullability; for
`Sum`/`Avg` a nullable field of a numeric type derived from `f`'s type,
failing with `UnsupportedType` when `f`'s type is non-numeric. -/
theorem aggregate_resolution_fields (s : Schema) (arg : Expr) (f : Field)
    (h : resolve s arg = .ok f) :
    resolve s (.aggregateFunction .count arg) =
      .ok ⟨exprName (.aggregateFunction .count arg), .int64, false⟩ ∧
    resolve s (.aggregateFunction .min arg) =
      .ok ⟨exprName (.aggregateFunction .min arg), f.dataType, f.nullable⟩ ∧
    resolve s (.aggregateFunction .max arg) =
      .ok ⟨exprName (.aggregateFunction .max arg), f.dataType, f.nullable⟩ ∧
    (f.dataType.numeric = true →
      resolve s (.aggregateFunction .sum arg) =
        .ok ⟨exprName (.aggregateFunction .sum arg), sumType f.dataType, true⟩ ∧
      (sumType f.dataType).numeric = true ∧
      resolve s (.aggregateFunction .avg arg) =
        .ok ⟨exprName (.aggregateFunction .avg arg), .float64, true⟩ ∧
      DataType.numeric .float64 = true) ∧
    (f.dataType.numeric = false →
      resolve s (.aggregateFunction .sum arg) = .error .unsupportedType ∧
      resolve s (.aggregateFunction .avg arg) = .error .unsupportedType) := by
  refine ⟨by simp [resolve, h, aggReturnField],
    by simp [resolve, h, aggReturnField],
    by simp [resolve, h, aggReturnField], ?_, ?_⟩
  · intro hn
    exact ⟨by simp [resolve, h, aggReturnField, hn], sumType_numeric hn,
      by simp [resolve, h, aggReturnField, hn], rfl⟩
  · intro hn
    constructor <;> simp [resolve, h, aggReturnField, hn]

theorem aggregate_resolution_fields_witness :
    (resolve demoSchema (.aggregateFunction .count (.column "b")) =
      .ok ⟨exprName (.aggregateFunction .count (.column "b")), .int64, false⟩) ∧
    (resolve demoSchema (.aggregateFunction .min (.column "b")) =
      .ok ⟨exprName (.aggregateFunction .min (.column "b")), .int32, true⟩) ∧
    (resolve demoSchema (.aggregateFunction .sum (.column "b")) =
      .ok ⟨exprName (.aggregateFunction .sum (.column "b")), .int64, true⟩) ∧
    (resolve demoSchema (.aggregateFunction .sum (.column "c")) =
      .error .unsupportedType) :=
  ⟨(aggregate_resolution_fields demoSchema (.column "b") ⟨"b", .int32, true⟩
      (by rfl)).1,
   (aggregate_resolution_fields demoSchema (.column "b") ⟨"b", .int32, true⟩
      (by rfl)).2.1,
   ((aggregate_resolution_fields demoSchema (.column "b") ⟨"b", .int32, true⟩
      (by rfl)).2.2.2.1 (by rfl)).1,
   ((aggregate_resolution_fields demoSchema (.column "c") ⟨"c", .utf8, false⟩
      (by rfl)).2.2.2.2 (by rfl)).1⟩

/-- C5: validation errors arise only at builder transformation calls:
composing expressions is a pure total constructor that performs no schema
validation, the aggregate factories `min`/`max`/`sum`/`avg`/`count`
always succeed for any argument expression, and every successfully built
plan is schema-valid at every node — so nothing is left for `collect()`
to validate. -/
theorem synchronous_validation :
    (∀ (x : String) (v : ScalarValue),
      Expr.lt_eq (.column x) (.literal v) = .binaryOp (.column x) .ltEq (.literal v)) ∧
    (∀ (df : DataFrame) (e : Expr),
      (df.min e).isOk = true ∧ (df.max e).isOk = true ∧ (df.sum e).isOk = true ∧
      (df.avg e).isOk = true ∧ (df.count e).isOk = true) ∧
    (∀ df : DataFrame, Built df → planValid df.plan = true) :=
  ⟨fun _ _ => rfl,
   fun _ _ => ⟨rfl, rfl, rfl, rfl, rfl⟩,
   fun _ h => (built_inv h).2⟩

theorem synchronous_validation_witness :
    planValid demoDF.plan = true :=
  synchronous_validation.2.2 demoDF (Built.scan demoSchema (by decide))

/-- C6: expressions and builders are immutable values: `a.lt_eq(b)`
returns a new node — distinct from both operands — that embeds the
operands unchanged, and a successful `filter` returns a new builder,
distinct from its input, whose plan wraps the unchanged input plan and
whose schema equals the unchanged input schema. -/
theorem immutable_composition :
    (∀ a b : Expr,
      Expr.lt_eq a b = .binaryOp a .ltEq b ∧
      Expr.lt_eq a b ≠ a ∧ Expr.lt_eq a b ≠ b) ∧
    (∀ (df df' : DataFrame) (e : Expr), df.filter e = .ok df' →
      df'.plan = .filter e df.plan ∧ df'.schema = df.schema ∧ df' ≠ df) := by
  constructor
  · intro a b
    refine ⟨rfl, ?_, ?_⟩
    · intro h
      have hs := congrArg exprSize h
      have hb := exprSize_pos b
      simp [Expr.lt_eq, exprSize] at hs
      omega
    · intro h
      have hs := congrArg exprSize h
      have ha := exprSize_pos a
      simp [Expr.lt_eq, exprSize] at hs
      omega
  · intro df df' e h
    obtain ⟨f, hf, hb, rfl⟩ := filter_ok h
    refine ⟨rfl, rfl, ?_⟩
    intro heq
    have hs := congrArg (fun d => planSize d.plan) heq
    simp [planSize] at hs

theorem immutable_composition_witness :
    demoFilterDF.plan = .filter demoPred demoDF.plan ∧
    demoFilterDF.schema = demoDF.schema ∧ demoFilterDF ≠ demoDF :=
  immutable_composition.2 demoDF demoFilterDF demoPred (by rfl)

/-- C7: the Schema Resolver is deterministic and pure: the resolution
judgment agrees exactly with the executable resolver, and two resolutions
of the same schema and expression always yield the same field. -/
theorem resolver_deterministic :
    (∀ (s : Schema) (e : Expr) (f : Field), ResolveR s e f ↔ resolve s e = .ok f) ∧
    (∀ (s : Schema) (e : Expr) (f1 f2 : Field),
      ResolveR s e f1 → ResolveR s e f2 → f1 = f2) := by
  constructor
  · intro s e f
    exact ⟨resolveR_sound, resolve_complete⟩
  · intro s e f1 f2 h1 h2
    have e1 := resolveR_sound h1
    have e2 := resolveR_sound h2
    rw [e1] at e2
    exact Except.ok.inj e2

theorem resolver_deterministic_witness :
    ResolveR demoSchema (.column "a") ⟨"a", .int32, false⟩ ∧
    (⟨"a", .int32, false⟩ : Field) = ⟨"a", .int32, false⟩ := by
  have h := (resolver_deterministic.1 demoSchema (.column "a")
    ⟨"a", .int32, false⟩).mpr (by rfl)
  exact ⟨h, resolver_deterministic.2 demoSchema (.column "a") _ _ h h⟩

/-- C8: `limit(n)` succeeds unconditionally (no maximum is configured in
this core, so the `InvalidArgument` case is vacuous), the resulting
builder's schema is identical to the input builder's schema, and after
`limit(100)` `collect()` never returns more than 100 rows. -/
theorem limit_schema_and_bound (df : DataFrame) (n : Nat) :
    df.limit n = .ok ⟨.limit n df.plan, df.schema⟩ ∧
    (∀ df', df.limit n = .ok df' → df'.schema = df.schema) ∧
    (∀ (df' : DataFrame) (tbl rows : List (List Value)),
      df.limit 100 = .ok df' → df'.collect tbl = .ok rows → rows.length ≤ 100) := by
  refine ⟨rfl, ?_, ?_⟩
  · intro df' h
    obtain rfl := limit_ok h
    rfl
  · intro df' tbl rows h hc
    obtain rfl := limit_ok h
    unfold DataFrame.collect at hc
    cases hc
    simp [execute]

theorem limit_schema_and_bound_witness :
    (demoDF.limit 100 = .ok ⟨.limit 100 demoDF.plan, demoDF.schema⟩) ∧
    (([] : List (List Value)).length ≤ 100) :=
  ⟨(limit_schema_and_bound demoDF 100).1,
   (limit_schema_and_bound demoDF 100).2.2 ⟨.limit 100 demoDF.plan, demoDF.schema⟩
     [] [] (by rfl) (by rfl)⟩

/-- The expected result of sorting `demoDF` by `a` ascending nulls-first
then `b` descending nulls-last. -/
def demoSortDF : DataFrame :=
  ⟨.sort [.sort (.column "a") true true, .sort (.column "b") false false]
    (.scan demoSchema), demoSchema⟩

/-- C9: a successful `sort(sort_exprs)` call implies every element was a
`Sort`-wrapped expression, and the resulting builder's schema is
identical to the input builder's schema. -/
theorem sort_preserves_schema (df : DataFrame) (es : List Expr) (df' : DataFrame)
    (h : df.sort es = .ok df') :
    es.all isSortExpr = true ∧ df'.schema = df.schema ∧
    df'.plan = .sort es df.plan := by
  obtain ⟨hall, hres, rfl⟩ := sort_ok h
  exact ⟨hall, rfl, rfl⟩

theorem sort_preserves_schema_witness :
    ([Expr.sort (.column "a") true true, Expr.sort (.column "b") false false].all
      isSortExpr = true) ∧
    demoSortDF.schema = demoDF.schema ∧
    demoSortDF.plan = .sort
      [Expr.sort (.column "a") true true, Expr.sort (.column "b") false false]
      demoDF.plan :=
  sort_preserves_schema demoDF _ demoSortDF (by rfl)

/-- C10: for every builder constructed through the public API,
`to_logical_plan()` and `schema()` are total accessors with no error
path: the builder returns its plan directly, and its stored schema is
exactly the derived output schema of that plan, so a constructed
DataFrame can always report both. -/
theorem accessors_total (df : DataFrame) (h : Built df) :
    df.to_logical_plan = df.plan ∧ planSchema df.to_logical_plan = some df.schema :=
  ⟨rfl, (built_inv h).1⟩

theorem accessors_total_witness :
    demoDF.to_logical_plan = demoDF.plan ∧
    planSchema demoDF.to_logical_plan = some demoDF.schema :=
  accessors_total demoDF (Built.scan demoSchema (by decide))

end DataFusion
